import Mathlib

/-!
Tagged-Variant Schema Engine: a shallow embedding.

This file embeds the data model of the repository's two FastAPI example
applications and the tagged-variant validation/serialization engine that the
specification isolates as the core.

* The Pydantic model declarations (`EmailNotification`, `SMSNotification`,
  `Product`, `CreditCardPayment`, … in `examples/fastapi-edge-cases/main.py`),
  the pagination arithmetic in `fast-api-app/api/users.py`, and the
  `OrderItem.validate_total_price` validator in `fast-api-app/schemas/order.py`
  are translated from the source.
* The validation engine itself (`validate`, `serialize`, `matchExhaustive`,
  registration) lives in the external validation library, not in the
  repository's source tree; those operations are modelled from the
  specification's §4.1 algorithm.

Values are JSON-like data already parsed from the transport format; mappings
are association lists of field name to value.  Decimal and float arithmetic is
modelled exactly over `Rat`.
-/

/-- A JSON-like wire value, as handed to the engine after transport parsing.
String-shaped scalar formats (UUID, datetime) are carried as strings; the
spec does not constrain their internal format. -/
inductive Value where
  | null : Value
  | str : String → Value
  | int : Int → Value
  | float : Rat → Value
  | bool : Bool → Value
  | listStr : List String → Value
  | dictStr : List (String × String) → Value
deriving DecidableEq, Repr

/-- A declared field type: primitive, enum of string literals, a literal
string (used for discriminator fields), or a nested object (kept abstract here; no
claim exercises nested recursion). -/
inductive Ty where
  | str : Ty
  | int : Ty
  | float : Ty
  | bool : Ty
  | uuid : Ty
  | datetime : Ty
  | listStr : Ty
  | dictStr : Ty
  | enum : List String → Ty
  | lit : String → Ty
  | obj : String → Ty
deriving DecidableEq, Repr

/-- Modelled from the spec: type checking of a single non-null value against a
declared type (§4.1 step 3 and the numeric/edge policy §4.1: an integer field
accepts an integral number but rejects one with a non-zero fractional part,
such as 1.5). -/
def typeCheck : Ty → Value → Bool
  | .str, .str _ => true
  | .uuid, .str _ => true
  | .datetime, .str _ => true
  | .int, .int _ => true
  | .int, .float q => q.den == 1
  | .float, .float _ => true
  | .float, .int _ => true
  | .bool, .bool _ => true
  | .listStr, .listStr _ => true
  | .dictStr, .dictStr _ => true
  | .enum vals, .str s => vals.contains s
  | .lit l, .str s => l == s
  | .obj _, .dictStr _ => true
  | _, _ => false

/-- Equality of engine results is decidable, so concrete validation runs can
be settled by evaluation. -/
instance instDecEqExcept {ε α : Type} [DecidableEq ε] [DecidableEq α] :
    DecidableEq (Except ε α) := fun x y =>
  match x, y with
  | .ok a, .ok b =>
      if h : a = b then isTrue (by rw [h])
      else isFalse (by intro hc; cases hc; exact h rfl)
  | .error a, .error b =>
      if h : a = b then isTrue (by rw [h])
      else isFalse (by intro hc; cases hc; exact h rfl)
  | .ok _, .error _ => isFalse (by intro hc; cases hc)
  | .error _, .ok _ => isFalse (by intro hc; cases hc)

/-- A field-level validation error (spec §7 taxonomy, field-scoped kinds). -/
inductive FieldErr where
  | missingField : String → FieldErr
  | invalidField : String → FieldErr
  | typeMismatch : String → Ty → Value → FieldErr
deriving DecidableEq, Repr

/-- A union-level validation error (spec §7 taxonomy): the discriminator is
absent, no variant carries the attempted discriminator value (the error
reports the attempted value and the set of valid values), or the matched
variant's fields produced an accumulated list of field errors. -/
inductive ValidateErr where
  | missingDiscriminator : ValidateErr
  | unknownVariant : Value → List String → ValidateErr
  | fieldErrors : List FieldErr → ValidateErr
deriving DecidableEq, Repr

/-- A field specification (spec §3): name, declared type, independent
required and nullable flags, and an optional declared default. -/
structure FieldSpec where
  name : String
  ty : Ty
  required : Bool
  nullable : Bool
  dflt : Option Value
deriving DecidableEq, Repr

/-- A variant shape (spec §3): its class name, its discriminator literal when
it declares one (`type: Literal[...]` in the source; `none` when the class
declares no discriminator field), and its non-discriminator fields. -/
structure Variant where
  name : String
  disc : Option String
  fields : List FieldSpec
deriving DecidableEq, Repr

/-- A union (spec §3): the shared discriminator field name and the ordered
member variants. -/
structure UnionSpec where
  discField : String
  variants : List Variant
deriving DecidableEq, Repr

/-- A validated value: tagged with its matched variant's discriminator
literal and carrying the validated field values (spec §4.1 step 4). -/
structure TypedValue where
  tag : String
  fields : List (String × Value)
deriving DecidableEq, Repr

/-- Modelled from the spec: validation of a single field of the matched
variant against the input mapping (spec §4.1 step 3).  Absent key: required
fails with `MissingField`, optional materializes the declared default if any.
Present null: nullable keeps the null, required non-nullable fails with
`MissingField`, optional non-nullable fails with `InvalidField`.  Present
non-null: the value must type-check, else `TypeMismatch`. -/
def checkField (input : List (String × Value)) (f : FieldSpec) :
    Except FieldErr (Option (String × Value)) :=
  match List.lookup f.name input with
  | none =>
      if f.required then .error (.missingField f.name)
      else
        match f.dflt with
        | some d => .ok (some (f.name, d))
        | none => .ok none
  | some v =>
      if v = Value.null then
        if f.nullable then .ok (some (f.name, Value.null))
        else if f.required then .error (.missingField f.name)
        else .error (.invalidField f.name)
      else
        if typeCheck f.ty v then .ok (some (f.name, v))
        else .error (.typeMismatch f.name f.ty v)

/-- The accumulated list of field errors over a variant's fields. -/
def checkErrs (input : List (String × Value)) (fs : List FieldSpec) :
    List FieldErr :=
  fs.filterMap fun f =>
    match checkField input f with
    | .error e => some e
    | .ok _ => none

/-- The validated output bindings over a variant's fields: present values are
kept, defaults are materialized for omitted fields that declare one, and
omitted optional fields without a default are absent. -/
def checkOuts (input : List (String × Value)) (fs : List FieldSpec) :
    List (String × Value) :=
  fs.filterMap fun f =>
    match checkField input f with
    | .ok (some kv) => some kv
    | _ => none

/-- Modelled from the spec: validation of all fields of the matched variant,
accumulating every field error rather than stopping at the first (spec §4.1
step 3 and the failure semantics of §4.1/§7). -/
def validateFields (fs : List FieldSpec) (input : List (String × Value)) :
    Except (List FieldErr) (List (String × Value)) :=
  match checkErrs input fs with
  | [] => .ok (checkOuts input fs)
  | e :: es => .error (e :: es)

/-- Whether a variant's declared discriminator literal matches the raw
discriminator value read from the input; comparison is exact string equality,
case-sensitive, no coercion (spec §4.1 numeric/edge policy). -/
def discMatches (v : Variant) (dv : Value) : Bool :=
  match v.disc, dv with
  | some d, Value.str s => d == s
  | _, _ => false

/-- Modelled from the spec: `validate(union, input)` (spec §4.1).  Reads the
discriminator field (failing with `MissingDiscriminator` if absent), looks up
the matching variant by exact discriminator value (failing with
`UnknownVariant` listing the attempted and valid values), then validates every
field of the matched variant, accumulating field errors; on success the result
is tagged with the matched variant's discriminator literal. -/
def validate (u : UnionSpec) (input : List (String × Value)) :
    Except ValidateErr TypedValue :=
  match List.lookup u.discField input with
  | none => .error .missingDiscriminator
  | some dv =>
      match u.variants.find? (fun v => discMatches v dv) with
      | none => .error (.unknownVariant dv (u.variants.filterMap Variant.disc))
      | some v =>
          match validateFields v.fields input with
          | .error errs => .error (.fieldErrors errs)
          | .ok out => .ok ⟨v.disc.getD v.name, out⟩

/-- Modelled from the spec: `serialize(value)` (spec §4.1) emits a mapping
that includes the discriminator field set to the variant's literal plus all
validated field bindings (explicit nulls kept, materialized defaults kept,
omitted optional fields absent). -/
def serialize (u : UnionSpec) (tv : TypedValue) : List (String × Value) :=
  (u.discField, Value.str tv.tag) :: tv.fields

/-- Modelled from the spec: the setup/compile-check phase of
`matchExhaustive(value, handlers)` (spec §4.1).  Given a union and a handler
table keyed by discriminator literal, it fails before any value is dispatched
if a handler is missing for any registered variant, reporting every uncovered
variant; only on full coverage does it return the table for later dispatch. -/
def missingHandlers {α : Type} (u : UnionSpec) (hs : List (String × α)) :
    List String :=
  u.variants.filterMap fun v =>
    match v.disc with
    | some d => if (List.lookup d hs).isSome then none else some d
    | none => some v.name

/-- Modelled from the spec: the setup/compile-check phase of
`matchExhaustive(value, handlers)` (spec §4.1) proper: with any variant
uncovered it fails, reporting all uncovered variants; only on full coverage
does it hand back the handler table for later dispatch. -/
def matchExhaustive {α : Type} (u : UnionSpec) (hs : List (String × α)) :
    Except (List String) (List (String × α)) :=
  match missingHandlers u hs with
  | [] => .ok hs
  | d :: ds => .error (d :: ds)

/-! ## Concrete schema declarations

Translated from the Pydantic class declarations in
`examples/fastapi-edge-cases/main.py`.  A class field with a declared default
is optional-with-default; `Optional[...] = None` is optional, nullable, with
default null; fields inherited from a base class come first, in declaration
order, as in the source. -/

/-- Base fields shared by all notification variants (`BaseNotification`). -/
def baseNotificationFields : List FieldSpec :=
  [⟨"id", Ty.uuid, true, false, none⟩,
   ⟨"created_at", Ty.datetime, true, false, none⟩,
   ⟨"message", Ty.str, true, false, none⟩]

/-- `EmailNotification`: discriminator literal "email". -/
def emailVariant : Variant :=
  ⟨"EmailNotification", some "email",
   baseNotificationFields ++
   [⟨"email_address", Ty.str, true, false, none⟩,
    ⟨"subject", Ty.str, true, false, none⟩,
    ⟨"html_content", Ty.str, false, true, some Value.null⟩]⟩

/-- `SMSNotification`: discriminator literal "sms"; `country_code` has the
declared default "+1". -/
def smsVariant : Variant :=
  ⟨"SMSNotification", some "sms",
   baseNotificationFields ++
   [⟨"phone_number", Ty.str, true, false, none⟩,
    ⟨"country_code", Ty.str, false, false, some (Value.str "+1")⟩]⟩

/-- `PushNotification`: discriminator literal "push". -/
def pushVariant : Variant :=
  ⟨"PushNotification", some "push",
   baseNotificationFields ++
   [⟨"device_id", Ty.str, true, false, none⟩,
    ⟨"badge_count", Ty.int, false, true, some Value.null⟩,
    ⟨"sound", Ty.str, false, true, some (Value.str "default")⟩]⟩

/-- `WebhookNotification`: discriminator literal "webhook". -/
def webhookVariant : Variant :=
  ⟨"WebhookNotification", some "webhook",
   baseNotificationFields ++
   [⟨"webhook_url", Ty.str, true, false, none⟩,
    ⟨"headers", Ty.dictStr, false, false, some (Value.dictStr [])⟩,
    ⟨"retry_count", Ty.int, false, false, some (Value.int 3)⟩]⟩

/-- The `Notification` union (`main.py` line 75). -/
def notificationUnion : UnionSpec :=
  ⟨"type", [emailVariant, smsVariant, pushVariant, webhookVariant]⟩

/-- Base fields shared by all user classes (`BaseUser`). -/
def baseUserFields : List FieldSpec :=
  [⟨"id", Ty.uuid, true, false, none⟩,
   ⟨"email", Ty.str, true, false, none⟩,
   ⟨"created_at", Ty.datetime, true, false, none⟩,
   ⟨"is_active", Ty.bool, false, false, some (Value.bool true)⟩]

/-- `RegularUser`: note that no user class declares a `type` discriminator
field; the source `User` union relies on structural matching only. -/
def regularUserVariant : Variant :=
  ⟨"RegularUser", none,
   baseUserFields ++
   [⟨"profile", Ty.obj "UserProfile", true, false, none⟩,
    ⟨"preferences", Ty.obj "UserPreferences", true, false, none⟩,
    ⟨"subscription_tier", Ty.enum ["free", "premium"], false, false,
     some (Value.str "free")⟩]⟩

/-- `AdminUser`. -/
def adminUserVariant : Variant :=
  ⟨"AdminUser", none,
   baseUserFields ++
   [⟨"profile", Ty.obj "UserProfile", true, false, none⟩,
    ⟨"preferences", Ty.obj "UserPreferences", true, false, none⟩,
    ⟨"permissions", Ty.listStr, true, false, none⟩,
    ⟨"last_login", Ty.datetime, false, true, some Value.null⟩]⟩

/-- `SystemUser`. -/
def systemUserVariant : Variant :=
  ⟨"SystemUser", none,
   baseUserFields ++
   [⟨"api_key", Ty.str, true, false, none⟩,
    ⟨"rate_limit", Ty.int, false, false, some (Value.int 1000)⟩,
    ⟨"allowed_scopes", Ty.listStr, true, false, none⟩]⟩

/-- The `User` union (`main.py` line 127): its members share no discriminator
field, so `disc` is `none` for each. -/
def userUnion : UnionSpec :=
  ⟨"type", [regularUserVariant, adminUserVariant, systemUserVariant]⟩

/-- `CreditCardPayment`: discriminator literal "credit_card".  The regex and
range constraints of the source are outside the spec's field model and are
not modelled. -/
def creditCardVariant : Variant :=
  ⟨"CreditCardPayment", some "credit_card",
   [⟨"card_number", Ty.str, true, false, none⟩,
    ⟨"expiry_month", Ty.int, true, false, none⟩,
    ⟨"expiry_year", Ty.int, true, false, none⟩,
    ⟨"cvv", Ty.str, true, false, none⟩,
    ⟨"cardholder_name", Ty.str, true, false, none⟩]⟩

/-- `BankTransferPayment`: discriminator literal "bank_transfer". -/
def bankTransferVariant : Variant :=
  ⟨"BankTransferPayment", some "bank_transfer",
   [⟨"account_number", Ty.str, true, false, none⟩,
    ⟨"routing_number", Ty.str, true, false, none⟩,
    ⟨"bank_name", Ty.str, true, false, none⟩,
    ⟨"account_holder_name", Ty.str, true, false, none⟩]⟩

/-- `DigitalWalletPayment`: discriminator literal "digital_wallet". -/
def digitalWalletVariant : Variant :=
  ⟨"DigitalWalletPayment", some "digital_wallet",
   [⟨"wallet_type", Ty.enum ["paypal", "apple_pay", "google_pay"], true, false,
     none⟩,
    ⟨"wallet_id", Ty.str, true, false, none⟩]⟩

/-- `CryptoPayment`: discriminator literal "crypto". -/
def cryptoVariant : Variant :=
  ⟨"CryptoPayment", some "crypto",
   [⟨"currency", Ty.enum ["bitcoin", "ethereum", "litecoin"], true, false,
     none⟩,
    ⟨"wallet_address", Ty.str, true, false, none⟩,
    ⟨"network", Ty.str, false, false, some (Value.str "mainnet")⟩]⟩

/-- The `PaymentMethod` union (`main.py` line 209). -/
def paymentMethodUnion : UnionSpec :=
  ⟨"type",
   [creditCardVariant, bankTransferVariant, digitalWalletVariant,
    cryptoVariant]⟩

/-- `Product` (`main.py` lines 141-152): `name` is required non-nullable,
`price` is required but nullable (`float | None`, per the source annotation
and the spec's §9 reading), `sale_price` is optional and nullable,
`description` is optional nullable. -/
def productFields : List FieldSpec :=
  [⟨"id", Ty.uuid, true, false, none⟩,
   ⟨"name", Ty.str, true, false, none⟩,
   ⟨"description", Ty.str, false, true, none⟩,
   ⟨"price", Ty.float, true, true, none⟩,
   ⟨"sale_price", Ty.float, false, true, none⟩,
   ⟨"status", Ty.enum ["draft", "published", "archived", "out_of_stock"],
    true, false, none⟩,
   ⟨"image_url", Ty.str, false, true, some Value.null⟩,
   ⟨"metadata", Ty.dictStr, false, false, some (Value.dictStr [])⟩,
   ⟨"tags", Ty.listStr, false, false, some (Value.listStr [])⟩,
   ⟨"created_at", Ty.datetime, true, false, none⟩,
   ⟨"updated_at", Ty.datetime, false, true, some Value.null⟩]

/-- The three unions declared by the edge-cases application, by name. -/
def declaredUnions : List (String × UnionSpec) :=
  [("Notification", notificationUnion), ("User", userUnion),
   ("PaymentMethod", paymentMethodUnion)]

/-! ## General properties of field validation -/

/-- Any binding produced by a successful field check carries the field's own
name as its key. -/
theorem checkField_ok_name {input : List (String × Value)} {f : FieldSpec}
    {kv : String × Value} (h : checkField input f = .ok (some kv)) :
    kv.1 = f.name := by
  unfold checkField at h
  split at h <;> (try split at h) <;> (try split at h) <;> (try split at h) <;>
    first | (cases h; rfl) | cases h

/-- A required field that passes its check was present in the input, and its
output binding carries exactly the input value (a null input value is kept as
null). -/
theorem checkField_required_ok {input : List (String × Value)} {f : FieldSpec}
    {r : Option (String × Value)} (hreq : f.required = true)
    (h : checkField input f = .ok r) :
    ∃ v, List.lookup f.name input = some v ∧ r = some (f.name, v) := by
  unfold checkField at h
  split at h
  · simp [hreq] at h
  · rename_i v hl
    refine ⟨v, hl, ?_⟩
    split at h <;> (try split at h) <;>
      first | (cases h; rfl) | (cases h; simp_all) | cases h

/-- A required field absent from the input makes its check fail with a
`MissingField` error at the field's name. -/
theorem checkField_required_absent {input : List (String × Value)}
    {f : FieldSpec} (hreq : f.required = true)
    (habs : List.lookup f.name input = none) :
    checkField input f = .error (.missingField f.name) := by
  unfold checkField
  rw [habs, hreq]
  simp

/-- When the accumulated error list over a variant's fields is empty, every
individual field check passed. -/
theorem checkErrs_nil_ok {input : List (String × Value)} {fs : List FieldSpec}
    (h : checkErrs input fs = []) :
    ∀ f ∈ fs, ∃ r, checkField input f = .ok r := by
  intro f hf
  unfold checkErrs at h
  have h2 := List.forall_none_of_filterMap_eq_nil h f hf
  cases hc : checkField input f with
  | ok r => exact ⟨r, rfl⟩
  | error e => rw [hc] at h2; cases h2

/-- Looking up a required field in the validated output recovers exactly the
input's value for that field, provided the variant's field names are distinct
and every field check passed. -/
theorem lookup_checkOuts_required (input : List (String × Value)) :
    ∀ (fs : List FieldSpec) (f : FieldSpec),
      f ∈ fs → f.required = true → (fs.map FieldSpec.name).Nodup →
      (∀ g ∈ fs, ∃ r, checkField input g = .ok r) →
      List.lookup f.name (checkOuts input fs) = List.lookup f.name input := by
  intro fs
  induction fs with
  | nil => intro f hmem _ _ _; cases hmem
  | cons g rest ih =>
    intro f hmem hreq hnd hok
    have hnd2 : (rest.map FieldSpec.name).Nodup := (List.nodup_cons.mp hnd).2
    have hgname : g.name ∉ rest.map FieldSpec.name := (List.nodup_cons.mp hnd).1
    rcases List.mem_cons.mp hmem with hf | hf
    · subst hf
      obtain ⟨r, hr⟩ := hok f (List.mem_cons_self _ _)
      obtain ⟨v, hv, hrv⟩ := checkField_required_ok hreq hr
      subst hrv
      have hstep : checkOuts input (f :: rest) =
          (f.name, v) :: checkOuts input rest := by
        unfold checkOuts
        rw [List.filterMap_cons, hr]
      rw [hstep, hv]
      simp [List.lookup]
    · have hne : f.name ≠ g.name := by
        intro he
        exact hgname (he ▸ List.mem_map.mpr ⟨f, hf, rfl⟩)
      have ihr := ih f hf hreq hnd2
        (fun g2 hg2 => hok g2 (List.mem_cons_of_mem _ hg2))
      obtain ⟨r, hr⟩ := hok g (List.mem_cons_self _ _)
      cases r with
      | none =>
        have hstep : checkOuts input (g :: rest) = checkOuts input rest := by
          unfold checkOuts; rw [List.filterMap_cons, hr]
        rw [hstep, ihr]
      | some kv =>
        have hkv : kv.1 = g.name := checkField_ok_name hr
        have hstep : checkOuts input (g :: rest) =
            kv :: checkOuts input rest := by
          unfold checkOuts; rw [List.filterMap_cons, hr]
        rw [hstep]
        obtain ⟨k1, v1⟩ := kv
        simp only at hkv
        subst hkv
        rw [List.lookup, beq_false_of_ne hne, ihr]

/-- A successful whole-variant validation means no field produced an error,
and the output is exactly the per-field validated bindings. -/
theorem validateFields_ok {fs : List FieldSpec}
    {input out : List (String × Value)}
    (h : validateFields fs input = .ok out) :
    checkErrs input fs = [] ∧ out = checkOuts input fs := by
  unfold validateFields at h
  split at h
  next he => cases h; exact ⟨he, rfl⟩
  next => cases h

/-- One failing field check makes the whole variant fail, with the failing
field's error present in the accumulated error list. -/
theorem validateFields_err_of_checkErr {fs : List FieldSpec}
    {input : List (String × Value)} {f : FieldSpec} {e : FieldErr}
    (hmem : f ∈ fs) (he : checkField input f = .error e) :
    validateFields fs input = .error (checkErrs input fs) ∧
      e ∈ checkErrs input fs := by
  have hmem2 : e ∈ checkErrs input fs := by
    unfold checkErrs
    exact List.mem_filterMap.mpr ⟨f, hmem, by rw [he]⟩
  refine ⟨?_, hmem2⟩
  unfold validateFields
  split
  next h0 => rw [h0] at hmem2; cases hmem2
  next h0 => rw [← h0]

/-! ## Concrete inputs used by the claims -/

/-- The SMS example input of the spec's §8 property list, with concrete UUID
and datetime strings. -/
def smsInput : List (String × Value) :=
  [("type", Value.str "sms"), ("phone_number", Value.str "555-0123"),
   ("id", Value.str "123e4567-e89b-12d3-a456-426614174000"),
   ("created_at", Value.str "2024-01-01T00:00:00Z"),
   ("message", Value.str "hi")]

/-- The typed value produced by validating `smsInput`. -/
def smsTyped : TypedValue :=
  ⟨"sms",
   [("id", Value.str "123e4567-e89b-12d3-a456-426614174000"),
    ("created_at", Value.str "2024-01-01T00:00:00Z"),
    ("message", Value.str "hi"),
    ("phone_number", Value.str "555-0123"),
    ("country_code", Value.str "+1")]⟩

/-- C7: validating the SMS example input against the Notification union
succeeds, the result is tagged as the SMSNotification variant, and its
country_code field carries the declared default "+1". -/
theorem C7_sms_default :
    ∃ tv, validate notificationUnion smsInput = Except.ok tv ∧
      tv.tag = "sms" ∧
      List.lookup "country_code" tv.fields = some (Value.str "+1") :=
  ⟨smsTyped, by decide, rfl, by decide⟩

/-- C2: any input whose `type` field holds a string different from each of
the four Notification discriminator literals fails with UnknownVariant
reporting the attempted value and the complete valid set. -/
theorem C2_unknown_variant (input : List (String × Value)) (s : String)
    (h1 : List.lookup "type" input = some (Value.str s))
    (h2 : s ∉ ["email", "sms", "push", "webhook"]) :
    validate notificationUnion input =
      Except.error (ValidateErr.unknownVariant (Value.str s)
        ["email", "sms", "push", "webhook"]) := by
  simp only [List.mem_cons, List.not_mem_nil, or_false, not_or] at h2
  obtain ⟨he, hs, hp, hw⟩ := h2
  have hfind : notificationUnion.variants.find?
      (fun v => discMatches v (Value.str s)) = none := by
    rw [List.find?_eq_none]
    intro v hv
    have hv4 : v = emailVariant ∨ v = smsVariant ∨ v = pushVariant ∨
        v = webhookVariant := by simpa [notificationUnion] using hv
    rcases hv4 with rfl | rfl | rfl | rfl <;>
      simp [discMatches, emailVariant, smsVariant, pushVariant,
        webhookVariant] <;>
      intro hc <;> simp_all
  unfold validate
  simp only [show notificationUnion.discField = "type" from rfl, h1, hfind]
  rfl

/-- Witness for C2 at the spec's own example: discriminator value "fax". -/
theorem C2_unknown_variant_witness :
    validate notificationUnion [("type", Value.str "fax")] =
      Except.error (ValidateErr.unknownVariant (Value.str "fax")
        ["email", "sms", "push", "webhook"]) :=
  C2_unknown_variant [("type", Value.str "fax")] "fax" (by decide) (by decide)

/-- The credit-card input used by the C8 witness: well formed except that
expiry_month carries the fractional number 1.5. -/
def ccFracInput : List (String × Value) :=
  [("type", Value.str "credit_card"),
   ("card_number", Value.str "4242424242424242"),
   ("expiry_month", Value.float (Rat.divInt 3 2)),
   ("expiry_year", Value.int 2030),
   ("cvv", Value.str "123"),
   ("cardholder_name", Value.str "Ada Lovelace")]

/-- C8: a field whose schema declares an integer type rejects a
floating-point value with a non-zero fractional part with a TypeMismatch
rather than coercing it; in particular full validation of a
CreditCardPayment input carrying 1.5 in expiry_month fails exactly with that
TypeMismatch. -/
theorem C8_int_rejects_fractional (f : FieldSpec) (q : Rat)
    (input : List (String × Value))
    (hf : f.ty = Ty.int) (hq : q.den ≠ 1)
    (hv : List.lookup f.name input = some (Value.float q)) :
    checkField input f =
        Except.error (FieldErr.typeMismatch f.name Ty.int (Value.float q)) ∧
      validate paymentMethodUnion ccFracInput =
        Except.error (ValidateErr.fieldErrors
          [FieldErr.typeMismatch "expiry_month" Ty.int
            (Value.float (Rat.divInt 3 2))]) := by
  have htc : typeCheck Ty.int (Value.float q) = false :=
    show (q.den == 1) = false from beq_false_of_ne hq
  constructor
  · unfold checkField
    simp [hv, htc, hf]
  · decide

/-- Witness for C8 at the CreditCardPayment expiry_month field (declared
integer in the source) and the fractional value 1.5. -/
theorem C8_int_rejects_fractional_witness :
    checkField ccFracInput ⟨"expiry_month", Ty.int, true, false, none⟩ =
        Except.error (FieldErr.typeMismatch "expiry_month" Ty.int
          (Value.float (Rat.divInt 3 2))) ∧
      validate paymentMethodUnion ccFracInput =
        Except.error (ValidateErr.fieldErrors
          [FieldErr.typeMismatch "expiry_month" Ty.int
            (Value.float (Rat.divInt 3 2))]) :=
  C8_int_rejects_fractional ⟨"expiry_month", Ty.int, true, false, none⟩
    (Rat.divInt 3 2) ccFracInput rfl (by decide) (by decide)

/-- A successful discriminator match means the variant declares the literal
that the input's discriminator value carries. -/
theorem discMatches_true {v : Variant} {dv : Value}
    (h : discMatches v dv = true) :
    ∃ s, v.disc = some s ∧ dv = Value.str s := by
  unfold discMatches at h
  cases hd : v.disc with
  | none => rw [hd] at h; cases dv <;> cases h
  | some d =>
    rw [hd] at h
    cases dv with
    | str s =>
        rw [beq_iff_eq] at h
        exact ⟨d, rfl, by rw [h]⟩
    | null => cases h
    | int n => cases h
    | float q => cases h
    | bool b => cases h
    | listStr l => cases h
    | dictStr l => cases h

/-- C1: round-trip for the Notification union.  Any accepted input validates
to a value whose serialization re-emits the same discriminator literal in the
`type` field (the literal the input supplied), and reproduces the input's
value for every required field of the matched variant. -/
theorem C1_roundtrip (input : List (String × Value)) (tv : TypedValue)
    (h : validate notificationUnion input = .ok tv) :
    List.lookup "type" (serialize notificationUnion tv) =
        some (Value.str tv.tag) ∧
      List.lookup "type" input = some (Value.str tv.tag) ∧
      ∃ v, v ∈ notificationUnion.variants ∧ v.disc = some tv.tag ∧
        ∀ f ∈ v.fields, f.required = true →
          List.lookup f.name (serialize notificationUnion tv) =
            List.lookup f.name input := by
  unfold validate at h
  cases hl : List.lookup notificationUnion.discField input with
  | none => rw [hl] at h; cases h
  | some dv =>
    simp only [hl] at h
    cases hfind : notificationUnion.variants.find?
        (fun v => discMatches v dv) with
    | none => simp only [hfind] at h; cases h
    | some v =>
      simp only [hfind] at h
      have hv_mem : v ∈ notificationUnion.variants :=
        List.mem_of_find?_eq_some hfind
      have hv_match : discMatches v dv = true := by
        have h2 := List.find?_some hfind
        simpa using h2
      obtain ⟨d, hd, hdv⟩ := discMatches_true hv_match
      cases hvf : validateFields v.fields input with
      | error errs => simp only [hvf] at h; cases h
      | ok out =>
        simp only [hvf, Except.ok.injEq] at h
        subst h
        obtain ⟨herrs, hout⟩ := validateFields_ok hvf
        have htag : (TypedValue.mk (v.disc.getD v.name) out).tag = d := by
          simp [hd]
        constructor
        · simp [serialize, List.lookup, notificationUnion]
        constructor
        · rw [show notificationUnion.discField = "type" from rfl] at hl
          rw [hl, hdv]
          simp [hd]
        · refine ⟨v, hv_mem, ?_, ?_⟩
          · simp [hd]
          · intro f hf hfreq
            have hprops : (v.fields.map FieldSpec.name).Nodup ∧
                ∀ g ∈ v.fields, g.name ≠ "type" := by
              have hv4 : v = emailVariant ∨ v = smsVariant ∨
                  v = pushVariant ∨ v = webhookVariant := by
                simpa [notificationUnion] using hv_mem
              rcases hv4 with rfl | rfl | rfl | rfl <;>
                exact ⟨by decide, by decide⟩
            have hfname : f.name ≠ "type" := hprops.2 f hf
            have hskip : List.lookup f.name
                (serialize notificationUnion
                  (TypedValue.mk (v.disc.getD v.name) out)) =
                List.lookup f.name out := by
              simp [serialize, List.lookup, notificationUnion,
                beq_false_of_ne hfname]
            rw [hskip, hout]
            exact lookup_checkOuts_required input v.fields f hf hfreq
              hprops.1 (checkErrs_nil_ok herrs)

/-- Witness for C1 at the concrete SMS example input. -/
theorem C1_roundtrip_witness :
    List.lookup "type" (serialize notificationUnion smsTyped) =
        some (Value.str smsTyped.tag) ∧
      List.lookup "type" smsInput = some (Value.str smsTyped.tag) ∧
      ∃ v, v ∈ notificationUnion.variants ∧ v.disc = some smsTyped.tag ∧
        ∀ f ∈ v.fields, f.required = true →
          List.lookup f.name (serialize notificationUnion smsTyped) =
            List.lookup f.name smsInput :=
  C1_roundtrip smsInput smsTyped (by decide)

/-- A Product input whose price key is present but explicitly null, with
sale_price absent entirely. -/
def productPriceNullInput : List (String × Value) :=
  [("id", Value.str "9f6f4f1e-0000-0000-0000-000000000000"),
   ("name", Value.str "Widget"),
   ("price", Value.null),
   ("status", Value.str "draft"),
   ("created_at", Value.str "2024-01-01T00:00:00Z")]

/-- A Product input with a non-null price and sale_price explicitly null. -/
def productSaleNullInput : List (String × Value) :=
  [("id", Value.str "9f6f4f1e-0000-0000-0000-000000000001"),
   ("name", Value.str "Widget"),
   ("price", Value.float (Rat.divInt 5 1)),
   ("sale_price", Value.null),
   ("status", Value.str "published"),
   ("created_at", Value.str "2024-01-01T00:00:00Z")]

/-- C4: the required and nullable flags are enforced independently on the
Product shape: an input with the price key absent fails even though price is
nullable, an input with price explicitly null passes, sale_price may be
absent or explicitly null, and an input with the required non-nullable name
absent fails. -/
theorem C4_product_required_nullable (inp1 inp2 : List (String × Value))
    (h1 : List.lookup "price" inp1 = none)
    (h2 : List.lookup "name" inp2 = none) :
    (validateFields productFields inp1).isOk = false ∧
      (validateFields productFields inp2).isOk = false ∧
      (validateFields productFields productPriceNullInput).isOk = true ∧
      (validateFields productFields productSaleNullInput).isOk = true := by
  refine ⟨?_, ?_, by decide, by decide⟩
  · have hmem : (⟨"price", Ty.float, true, true, none⟩ : FieldSpec) ∈
        productFields := by decide
    have herr := checkField_required_absent
      (f := ⟨"price", Ty.float, true, true, none⟩) rfl h1
    rw [(validateFields_err_of_checkErr hmem herr).1]
    rfl
  · have hmem : (⟨"name", Ty.str, true, false, none⟩ : FieldSpec) ∈
        productFields := by decide
    have herr := checkField_required_absent
      (f := ⟨"name", Ty.str, true, false, none⟩) rfl h2
    rw [(validateFields_err_of_checkErr hmem herr).1]
    rfl

/-- Witness for C4 at the empty input, which lacks both keys. -/
theorem C4_product_required_nullable_witness :
    (validateFields productFields []).isOk = false ∧
      (validateFields productFields []).isOk = false ∧
      (validateFields productFields productPriceNullInput).isOk = true ∧
      (validateFields productFields productSaleNullInput).isOk = true :=
  C4_product_required_nullable [] [] rfl rfl

/-- C5: a CreditCardPayment input missing the cvv key fails with a
MissingField error whose path is cvv, and that error is accumulated in one
result together with a MissingField for every other required field absent
from the same input. -/
theorem C5_missing_cvv_accumulated (input : List (String × Value))
    (hdisc : List.lookup "type" input = some (Value.str "credit_card"))
    (hcvv : List.lookup "cvv" input = none) :
    ∃ errs, validate paymentMethodUnion input =
        Except.error (ValidateErr.fieldErrors errs) ∧
      FieldErr.missingField "cvv" ∈ errs ∧
      ∀ f ∈ creditCardVariant.fields, f.required = true →
        List.lookup f.name input = none →
        FieldErr.missingField f.name ∈ errs := by
  have hfind : paymentMethodUnion.variants.find?
      (fun v => discMatches v (Value.str "credit_card")) =
      some creditCardVariant := by decide
  have hcvvmem : (⟨"cvv", Ty.str, true, false, none⟩ : FieldSpec) ∈
      creditCardVariant.fields := by decide
  have hcvvf := checkField_required_absent
    (f := (⟨"cvv", Ty.str, true, false, none⟩ : FieldSpec)) rfl hcvv
  have hvf := validateFields_err_of_checkErr hcvvmem hcvvf
  refine ⟨checkErrs input creditCardVariant.fields, ?_, hvf.2, ?_⟩
  · unfold validate
    simp only [show paymentMethodUnion.discField = "type" from rfl, hdisc,
      hfind, hvf.1]
  · intro f hf hfreq hfabs
    exact (validateFields_err_of_checkErr hf
      (checkField_required_absent hfreq hfabs)).2

/-- Witness for C5 at an input carrying only the discriminator, so that cvv
and every other required field are missing at once. -/
theorem C5_missing_cvv_accumulated_witness :
    ∃ errs, validate paymentMethodUnion [("type", Value.str "credit_card")] =
        Except.error (ValidateErr.fieldErrors errs) ∧
      FieldErr.missingField "cvv" ∈ errs ∧
      ∀ f ∈ creditCardVariant.fields, f.required = true →
        List.lookup f.name [("type", Value.str "credit_card")] = none →
        FieldErr.missingField f.name ∈ errs :=
  C5_missing_cvv_accumulated [("type", Value.str "credit_card")]
    (by decide) (by decide)

/-- C6: exhaustive dispatch over the PaymentMethod union with a handler
table that lacks a handler for the crypto discriminator fails at setup,
before any value is dispatched: the setup check returns an error naming
crypto among the uncovered variants instead of producing a dispatcher. -/
theorem C6_exhaustive_missing_crypto {α : Type} (hs : List (String × α))
    (h : List.lookup "crypto" hs = none) :
    ∃ missing, matchExhaustive paymentMethodUnion hs =
        Except.error missing ∧ "crypto" ∈ missing := by
  have hmem : "crypto" ∈ missingHandlers paymentMethodUnion hs := by
    unfold missingHandlers
    refine List.mem_filterMap.mpr ⟨cryptoVariant, by decide, ?_⟩
    simp [cryptoVariant, h]
  cases hm : missingHandlers paymentMethodUnion hs with
  | nil => rw [hm] at hmem; cases hmem
  | cons d ds =>
    rw [hm] at hmem
    refine ⟨d :: ds, ?_, hmem⟩
    unfold matchExhaustive
    simp only [hm]

/-- Witness for C6 at a three-entry handler table covering every variant but
crypto. -/
theorem C6_exhaustive_missing_crypto_witness :
    ∃ missing, matchExhaustive paymentMethodUnion
        [("credit_card", 1), ("bank_transfer", 2), ("digital_wallet", 3)] =
        Except.error missing ∧ "crypto" ∈ missing :=
  C6_exhaustive_missing_crypto
    [("credit_card", 1), ("bank_transfer", 2), ("digital_wallet", 3)]
    (by decide)

/-- C3 counterexample: the User union falsifies the claim as stated.  Its
member RegularUser (like AdminUser and SystemUser) declares no `type`
discriminator field at all, so it is not the case that every union defined
by the program has all variants declaring the shared discriminator. -/
theorem C3_counterexample :
    regularUserVariant ∈ userUnion.variants ∧
      regularUserVariant.disc = none ∧
      ("User", userUnion) ∈ declaredUnions ∧
      ¬ ∀ p ∈ declaredUnions, ∀ v ∈ p.2.variants, v.disc.isSome = true := by
  refine ⟨by decide, rfl, by decide, ?_⟩
  intro hall
  have h2 := hall ("User", userUnion) (by decide) regularUserVariant
    (by decide)
  simp [regularUserVariant] at h2

/-- C3 amended: for the two genuinely discriminated unions of the program
(Notification and PaymentMethod) every variant declares the shared `type`
discriminator with a literal and the literals are pairwise distinct, so a
discriminator value matches at most one variant; the User union's members
declare no discriminator field. -/
theorem C3_amended_unique_discriminators :
    (∀ u ∈ [notificationUnion, paymentMethodUnion],
        (∀ v ∈ u.variants, v.disc.isSome = true) ∧
        ∀ v1 ∈ u.variants, ∀ v2 ∈ u.variants, v1.disc = v2.disc → v1 = v2) ∧
      (∀ v ∈ userUnion.variants, v.disc = none) ∧
      ∀ u ∈ [notificationUnion, paymentMethodUnion],
        ∀ dv : Value, ∀ v1 ∈ u.variants, ∀ v2 ∈ u.variants,
          discMatches v1 dv = true → discMatches v2 dv = true → v1 = v2 := by
  have hdec : ∀ u ∈ [notificationUnion, paymentMethodUnion],
      (∀ v ∈ u.variants, v.disc.isSome = true) ∧
      ∀ v1 ∈ u.variants, ∀ v2 ∈ u.variants, v1.disc = v2.disc → v1 = v2 :=
    by decide
  refine ⟨hdec, by decide, ?_⟩
  intro u hu dv v1 h1 v2 h2 hm1 hm2
  obtain ⟨s1, hs1, hdv1⟩ := discMatches_true hm1
  obtain ⟨s2, hs2, hdv2⟩ := discMatches_true hm2
  have hss : Value.str s1 = Value.str s2 := by rw [← hdv1, hdv2]
  have hs12 : s1 = s2 := by
    simp only [Value.str.injEq] at hss
    exact hss
  exact (hdec u hu).2 v1 h1 v2 h2 (by rw [hs1, hs2, hs12])

/-- Witness for C3's amended uniqueness statement at the email variant of
the Notification union. -/
theorem C3_amended_unique_discriminators_witness :
    emailVariant = emailVariant :=
  C3_amended_unique_discriminators.2.2 notificationUnion (by decide)
    (Value.str "email") emailVariant (by decide) emailVariant (by decide)
    (by decide) (by decide)

/-! ## Pagination and order-item arithmetic (fast-api-app) -/

/-- PaginationParams (schemas/common.py lines 48-54): page ≥ 1 and
1 ≤ size ≤ 100. -/
def paginationValid (page size : Nat) : Bool :=
  1 ≤ page && (1 ≤ size && size ≤ 100)

/-- The pagination envelope returned by the user-list endpoint. -/
structure PageEnvelope where
  total : Nat
  page : Nat
  size : Nat
  pages : Nat
  has_next : Bool
  has_prev : Bool
deriving DecidableEq, Repr

/-- The envelope computation of get_users (api/users.py lines 109-123):
pages = (total + size - 1) // size, has_next = page < pages,
has_prev = page > 1. -/
def getUsersEnvelope (total page size : Nat) : PageEnvelope :=
  { total := total, page := page, size := size,
    pages := (total + size - 1) / size,
    has_next := decide (page < (total + size - 1) / size),
    has_prev := decide (1 < page) }

/-- C9: for every total and validated pagination input the user-list
envelope satisfies pages = ⌈total / size⌉, computed as
(total + size - 1) // size, with has_next exactly page < pages and has_prev
exactly page > 1; the lower bound size ≥ 1 keeps the division
well-defined. -/
theorem C9_pagination_envelope (total page size : Nat)
    (h : paginationValid page size = true) :
    (getUsersEnvelope total page size).pages = (total + size - 1) / size ∧
      ((getUsersEnvelope total page size).pages : ℤ) =
        ⌈(total : ℚ) / (size : ℚ)⌉ ∧
      ((getUsersEnvelope total page size).has_next = true ↔
        page < (getUsersEnvelope total page size).pages) ∧
      ((getUsersEnvelope total page size).has_prev = true ↔ 1 < page) := by
  have hb : 1 ≤ page ∧ 1 ≤ size ∧ size ≤ 100 := by
    simpa [paginationValid, Bool.and_eq_true, decide_eq_true_eq] using h
  obtain ⟨hpage, hs1, hs100⟩ := hb
  have hsz : 0 < size := hs1
  refine ⟨rfl, ?_, by simp [getUsersEnvelope], by simp [getUsersEnvelope]⟩
  set p : Nat := (total + size - 1) / size with hpdef
  have hA1 : p * size ≤ total + size - 1 := by
    rw [Nat.mul_comm]; exact Nat.mul_div_le _ _
  have hA2 : total + size - 1 < p * size + size := by
    have h0 := (Nat.div_lt_iff_lt_mul hsz).mp (Nat.lt_succ_self p)
    calc total + size - 1 < (p + 1) * size := h0
      _ = p * size + size := by ring
  have hle : total ≤ p * size := by
    generalize p * size = A at hA1 hA2
    omega
  have hlt : p * size < total + size := by
    generalize p * size = A at hA1 hA2
    omega
  show ((p : ℤ) : ℤ) = ⌈(total : ℚ) / (size : ℚ)⌉
  rw [eq_comm, Int.ceil_eq_iff]
  have hszQ : (0 : ℚ) < (size : ℚ) := by exact_mod_cast hsz
  constructor
  · rw [lt_div_iff₀ hszQ]
    have hltQ : (p : ℚ) * size < total + size := by exact_mod_cast hlt
    push_cast
    nlinarith [hltQ]
  · rw [div_le_iff₀ hszQ]
    have hleQ : (total : ℚ) ≤ (p : ℚ) * size := by exact_mod_cast hle
    push_cast
    linarith

/-- Witness for C9 at total = 5, page = 1, size = 2. -/
theorem C9_pagination_envelope_witness :
    (getUsersEnvelope 5 1 2).pages = (5 + 2 - 1) / 2 ∧
      ((getUsersEnvelope 5 1 2).pages : ℤ) = ⌈(5 : ℚ) / (2 : ℚ)⌉ ∧
      ((getUsersEnvelope 5 1 2).has_next = true ↔
        1 < (getUsersEnvelope 5 1 2).pages) ∧
      ((getUsersEnvelope 5 1 2).has_prev = true ↔ 1 < 1) :=
  C9_pagination_envelope 5 1 2 (by decide)

/-- OrderItem validation (schemas/order.py lines 102-120): the field
constraints quantity > 0, unit_price > 0, total_price > 0, and the
validate_total_price model validator, which raises exactly when
|total_price - quantity * unit_price| exceeds Decimal 0.01.  Decimal
arithmetic is exact and is modelled over ℚ. -/
def orderItemValid (quantity : Int) (unit_price total_price : Rat) : Bool :=
  decide (0 < quantity) && decide (0 < unit_price) &&
    decide (0 < total_price) &&
    !decide ((1 : Rat) / 100 < |total_price - (quantity : Rat) * unit_price|)

/-- C10: every OrderItem that passes validation satisfies
|total_price - quantity * unit_price| ≤ 0.01, and any input violating the
relation is rejected, so line-total consistency is an invariant of
validated order items. -/
theorem C10_order_item_total (q : Int) (u t : Rat) :
    (orderItemValid q u t = true → |t - (q : Rat) * u| ≤ 1 / 100) ∧
      ((1 : Rat) / 100 < |t - (q : Rat) * u| →
        orderItemValid q u t = false) := by
  constructor
  · intro h
    unfold orderItemValid at h
    simp only [Bool.and_eq_true, Bool.not_eq_true', decide_eq_false_iff_not,
      decide_eq_true_eq, not_lt] at h
    exact h.2
  · intro h
    unfold orderItemValid
    simp
    intro _ _ _
    rw [← one_div]
    exact h

/-- Witness for C10 at quantity 2, unit price 99.99, total 199.98. -/
theorem C10_order_item_total_witness :
    orderItemValid 2 (9999 / 100) (19998 / 100) = true ∧
      |(19998 / 100 : Rat) - ((2 : Int) : Rat) * (9999 / 100)| ≤ 1 / 100 := by
  have hv : orderItemValid 2 (9999 / 100) (19998 / 100) = true := by
    unfold orderItemValid
    norm_num
  exact ⟨hv, (C10_order_item_total 2 (9999 / 100) (19998 / 100)).1 hv⟩
